import Mathlib

/-!
Shallow embedding of the rule-based LUT application engine of
`add_luts_by_rules.py` (classes `ProjectScanner`, `Rule` and its four
variants, `LUTManager.validate_lut_path`, `LUTApplier`), together with
theorems settling the frozen claims about it.

Host calls that the Python code performs against DaVinci Resolve's object
model are modelled as record fields of type `Except String α`: `.error e`
stands for the call raising an exception with message `e`, `.ok v` for the
call returning the value `v`.  A Python `try ... except` block that turns
an exception into a value is embedded as a `match` on the `Except` value.
Mutating host calls (`Graph.SetLUT`) additionally leave an entry in an
explicit invocation trace so that "the graph was never mutated" is an
observable statement.
-/

namespace AddLutsByRules

/-- Python `str.isspace` membership for the ASCII whitespace characters
`str.strip()` removes. -/
def pyIsSpace (c : Char) : Bool :=
  c == ' ' || c == '\t' || c == '\n' || c == '\r' || c == '\x0b' || c == '\x0c'

/-- Python `str.strip()` (ASCII whitespace): drop leading and trailing
whitespace. -/
def pyStrip (s : String) : String :=
  ⟨((s.data.dropWhile pyIsSpace).reverse.dropWhile pyIsSpace).reverse⟩

/-- Python `str.rstrip(c)` restricted to a single character: drop every
trailing occurrence of `c`. -/
def pyRstrip (s : String) (c : Char) : String :=
  ⟨(s.data.reverse.dropWhile (fun d => d == c)).reverse⟩

/-- Python `os.path.basename` for forward-slash paths: the part of the path
after the last separator. -/
def basename (p : String) : String :=
  ⟨(p.data.reverse.takeWhile (fun c => c != '/')).reverse⟩

/-- Lookup in a property bag, mirroring Python `props.get(key, "")`:
the value stored under `key`, or `""` when the key is absent. -/
def bagGet (bag : List (String × String)) (key : String) : String :=
  match bag.find? (fun kv => kv.1 == key) with
  | some kv => kv.2
  | none => ""

/-- Digits of a decimal string folded to a natural number. -/
def digitsToNat (cs : List Char) : Nat :=
  cs.foldl (fun acc c => 10 * acc + (c.toNat - 48)) 0

/-- Whether every character of the list is an ASCII digit. -/
def allDigits (cs : List Char) : Bool :=
  cs.all (fun c => c.isDigit)

/-- Value of up to three fractional digits, in thousandths
(e.g. `['9','7','6'] ↦ 976`, `['5'] ↦ 500`). -/
def fracThousandths (cs : List Char) : Nat :=
  match cs with
  | [] => 0
  | [a] => (a.toNat - 48) * 100
  | [a, b] => (a.toNat - 48) * 100 + (b.toNat - 48) * 10
  | a :: b :: c :: _ => (a.toNat - 48) * 100 + (b.toNat - 48) * 10 + (c.toNat - 48)

/-- Numeric parse of Python `float(s)` restricted to the modelled domain:
plain decimal notation (optional sign, integer digits, optional point and
at most three fractional digits), returned as a signed count of
thousandths.  Spellings outside this domain (exponent form, `inf`, `nan`,
more than three fractional digits, which `"%.3f"` would round) are outside
the model and parse to `none`, i.e. they take the non-numeric fallback
branch. -/
def parseThousandths (s : String) : Option Int :=
  let t := pyStrip s
  let (neg, rest) :=
    match t.data with
    | '-' :: cs => (true, cs)
    | '+' :: cs => (false, cs)
    | cs => (false, cs)
  let ipcs := rest.takeWhile (fun c => c.isDigit)
  let rest2 := rest.dropWhile (fun c => c.isDigit)
  let mk : Nat → Option Int := fun n =>
    if neg then some (-(n : Int)) else some ((n : Int))
  match rest2 with
  | [] =>
    if ipcs.isEmpty then none
    else mk (digitsToNat ipcs * 1000)
  | '.' :: fcs =>
    if !(allDigits fcs) then none
    else if ipcs.isEmpty && fcs.isEmpty then none
    else if 3 < fcs.length then none
    else mk (digitsToNat ipcs * 1000 + fracThousandths fcs)
  | _ => none

/-- Three-digit zero-padded rendering of a number below 1000. -/
def pad3 (m : Nat) : String :=
  if m < 10 then "00" ++ toString m
  else if m < 100 then "0" ++ toString m
  else toString m

/-- Python `f"{fps:.3f}"` on an exact value of `n` thousandths. -/
def formatFixed3 (n : Int) : String :=
  let sign := if n < 0 then "-" else ""
  let a := n.natAbs
  sign ++ toString (a / 1000) ++ "." ++ pad3 (a % 1000)

/-- Embedding of `normalize_frame_rate`: numeric inputs are formatted to
three decimals with trailing zeros and a trailing point stripped;
non-numeric inputs are returned stripped. -/
def normalize_frame_rate (s : String) : String :=
  match parseThousandths s with
  | some n => pyRstrip (pyRstrip (formatFixed3 n) '0') '.'
  | none => pyStrip s

/-- Filesystem facts the engine consults: `os.path.exists` and
`os.access(·, os.R_OK)`. -/
structure FileSystem where
  pathExists : String → Bool
  readable : String → Bool

/-- The four allow-listed LUT file extensions. -/
def lutExtensions : List String := [".cube", ".3dl", ".ilut", ".dat"]

/-- Python `path.lower()` (ASCII). -/
def pyLower (s : String) : String := ⟨s.data.map Char.toLower⟩

/-- Python `str.endswith(suffix)`. -/
def pyEndswith (s suffix : String) : Bool := suffix.data.isSuffixOf s.data

/-- Embedding of `LUTManager.validate_lut_path`: the empty path (removal
sentinel) is always valid; otherwise the path must exist and its lowercased
form must end with an allow-listed extension. -/
def validate_lut_path (fs : FileSystem) (path : String) : Bool :=
  if path == "" then true
  else if path.isEmpty || !(fs.pathExists path) then false
  else lutExtensions.any (fun e => pyEndswith (pyLower path) e)

/-- Modelled from the spec (section 4.3): `validate(path)` as the spec
states it, requiring existence, readability and an allow-listed extension
for non-empty paths.  Used only to compare the spec's wording against
`validate_lut_path`. -/
def validateLutPathSpec (fs : FileSystem) (path : String) : Bool :=
  if path == "" then true
  else fs.pathExists path && fs.readable path
    && lutExtensions.any (fun e => pyEndswith (pyLower path) e)

/-- A media pool item: `GetClipProperty()` yields the clip's property bag
(or raises). `GetClipProperty(key)` is modelled as the bag lookup for
`key`. -/
structure MediaPoolItem where
  clipProps : Except String (List (String × String))

/-- A node graph: `GetNumNodes()` (which may raise or return `None`) and
`SetLUT(node, path)` (which may raise, or return a truthy/falsy value). -/
structure Graph where
  numNodes : Except String (Option Nat)
  setLUT : Int → String → Except String Bool

/-- A timeline item and the host calls the engine performs on it:
`GetName()`, `GetMediaPoolItem()` (`none` for generators/titles),
`GetClipColor()` (`""` when no color tag is set) and `GetNodeGraph(1)`. -/
structure Item where
  name : Except String String
  mediaPoolItem : Except String (Option MediaPoolItem)
  clipColor : Except String String
  nodeGraph : Except String (Option Graph)

/-- A timeline: its name and its video tracks in index order, each track
the item list `GetItemListInTrack("video", idx)` returns. -/
structure Timeline where
  tlName : String
  videoTracks : List (List Item)

/-- The four rule categories of the dialog. -/
inductive RuleKind
  | codec
  | resolution
  | frameRate
  | clipColor
deriving DecidableEq

/-- A configured rule: the shared fields of the Python `Rule` base class
plus the variant tag. -/
structure Rule where
  kind : RuleKind
  value : String
  lut_path : String
  target_node : Int

/-- Keyed `GetClipProperty` access on a media pool item. -/
def getClipPropertyKey (m : MediaPoolItem) (key : String) : Except String String :=
  m.clipProps.map (fun bag => bagGet bag key)

/-- Python `try: body except Exception: return False` around a boolean
computation. -/
def catchB (e : Except String Bool) : Bool :=
  match e with
  | .ok b => b
  | .error _ => false

/-- Python `try: body except Exception: pass; return ""` around a string
computation. -/
def catchS (e : Except String String) : String :=
  match e with
  | .ok s => s
  | .error _ => ""

/-- Embedding of `CodecRule.matches`: requires a media pool item, reads
`GetClipProperty("Video Codec")`, fails on falsy, and compares the raw
codec string against the rule value. -/
def codecMatches (r : Rule) (it : Item) : Bool :=
  catchB (
    match it.mediaPoolItem with
    | .error e => .error e
    | .ok none => .ok false
    | .ok (some mpi) =>
      match getClipPropertyKey mpi ("Video Codec") with
      | .error e => .error e
      | .ok codec =>
        if codec.isEmpty then .ok false
        else .ok (codec == r.value))

/-- Embedding of `ResolutionRule.matches`: reads the property bag, fails on
a falsy resolution, and compares the stripped resolution string. -/
def resolutionMatches (r : Rule) (it : Item) : Bool :=
  catchB (
    match it.mediaPoolItem with
    | .error e => .error e
    | .ok none => .ok false
    | .ok (some mpi) =>
      match mpi.clipProps with
      | .error e => .error e
      | .ok bag =>
        let resolution := bagGet bag ("Resolution")
        if resolution.isEmpty then .ok false
        else .ok (pyStrip resolution == r.value))

/-- Python `props.get("Frame Rate", "") or props.get("FPS", "")`. -/
def frameRateRaw (bag : List (String × String)) : String :=
  if (bagGet bag ("Frame Rate")).isEmpty then bagGet bag ("FPS")
  else bagGet bag ("Frame Rate")

/-- Embedding of `FrameRateRule.matches`: reads the frame rate (with the
FPS fallback), fails on falsy, normalizes it and compares. -/
def frameRateMatches (r : Rule) (it : Item) : Bool :=
  catchB (
    match it.mediaPoolItem with
    | .error e => .error e
    | .ok none => .ok false
    | .ok (some mpi) =>
      match mpi.clipProps with
      | .error e => .error e
      | .ok bag =>
        let fr := frameRateRaw bag
        if fr.isEmpty then .ok false
        else .ok (normalize_frame_rate fr == r.value))

/-- Embedding of `ClipColorRule.matches`: requires a media pool item (so
generators and titles never match), reads `GetClipColor()`, fails on
falsy, and compares the raw color string. -/
def clipColorMatches (r : Rule) (it : Item) : Bool :=
  catchB (
    match it.mediaPoolItem with
    | .error e => .error e
    | .ok none => .ok false
    | .ok (some _) =>
      match it.clipColor with
      | .error e => .error e
      | .ok color =>
        if color.isEmpty then .ok false
        else .ok (color == r.value))

/-- Dispatch of `rule.matches(item)` over the four variants. -/
def ruleMatches (r : Rule) (it : Item) : Bool :=
  match r.kind with
  | .codec => codecMatches r it
  | .resolution => resolutionMatches r it
  | .frameRate => frameRateMatches r it
  | .clipColor => clipColorMatches r it

/-- Embedding of `get_property_value` of the four variants: the same
extraction as matching, caught to `""` on any failure. -/
def get_property_value (r : Rule) (it : Item) : String :=
  match r.kind with
  | .codec =>
    catchS (
      match it.mediaPoolItem with
      | .error e => .error e
      | .ok none => .ok ""
      | .ok (some mpi) => getClipPropertyKey mpi ("Video Codec"))
  | .resolution =>
    catchS (
      match it.mediaPoolItem with
      | .error e => .error e
      | .ok none => .ok ""
      | .ok (some mpi) =>
        match mpi.clipProps with
        | .error e => .error e
        | .ok bag =>
          let resolution := bagGet bag ("Resolution")
          if resolution.isEmpty then .ok ""
          else .ok (pyStrip resolution))
  | .frameRate =>
    catchS (
      match it.mediaPoolItem with
      | .error e => .error e
      | .ok none => .ok ""
      | .ok (some mpi) =>
        match mpi.clipProps with
        | .error e => .error e
        | .ok bag =>
          let fr := frameRateRaw bag
          if fr.isEmpty then .ok ""
          else .ok (normalize_frame_rate fr))
  | .clipColor => catchS it.clipColor

/-- One entry of `results["details"]`.  A successful application records
the matched property value and no error; a failed one records the error
message and no property key. -/
structure Detail where
  timeline : String
  clip : String
  property : Option String
  lut : String
  target_node : Int
  error : Option String
  success : Bool
deriving DecidableEq

/-- The `results` dictionary of `LUTApplier`. -/
structure Results where
  clips_processed : Nat
  clips_skipped : Nat
  luts_applied : Nat
  errors : Nat
  details : List Detail
deriving DecidableEq

/-- The freshly initialized `results` dictionary of `LUTApplier.__init__`. -/
def emptyResults : Results :=
  { clips_processed := 0, clips_skipped := 0, luts_applied := 0,
    errors := 0, details := [] }

/-- Embedding of `LUTApplier._apply_lut_to_item`.  Returns the
`(success, message)` pair of the Python method together with the trace of
`SetLUT` invocations the call performed (of length 0 or 1).  The
`try ... except` wrapping the whole body is embedded by turning every
raising host call into the `(False, "Exception: ...")` result. -/
def apply_lut_to_item (fs : FileSystem) (it : Item) (r : Rule) :
    (Bool × String) × List (Int × String) :=
  match it.mediaPoolItem with
  | .error e => ((false, "Exception: " ++ e), [])
  | .ok none => ((false, "Clip is a generator/title (no color grading support)"), [])
  | .ok (some _) =>
    match it.nodeGraph with
    | .error e => ((false, "Exception: " ++ e), [])
    | .ok none => ((false, "Failed to get node graph (layer 1)"), [])
    | .ok (some graph) =>
      match graph.numNodes with
      | .error e => ((false, "Exception: " ++ e), [])
      | .ok none => ((false, "Failed to get node count from graph"), [])
      | .ok (some node_count) =>
        if r.target_node < 1 then
          ((false, "Invalid target node " ++ toString r.target_node
            ++ " (must be >= 1)"), [])
        else if (node_count : Int) < r.target_node then
          ((false, "Target node " ++ toString r.target_node
            ++ " out of range (clip has " ++ toString node_count
            ++ " node(s)). Add nodes in Color page or change target node."), [])
        else
          let is_removal := r.lut_path == ""
          if !is_removal && !(fs.pathExists r.lut_path) then
            ((false, "LUT file not found: " ++ r.lut_path), [])
          else if !is_removal && !(fs.readable r.lut_path) then
            ((false, "LUT file not readable: " ++ r.lut_path), [])
          else
            match graph.setLUT r.target_node r.lut_path with
            | .error e => ((false, "Exception: " ++ e), [(r.target_node, r.lut_path)])
            | .ok result =>
              if !result then
                if is_removal then
                  ((false, "SetLUT() returned False (failed to remove LUT from node "
                    ++ toString r.target_node ++ ")"), [(r.target_node, r.lut_path)])
                else
                  ((false, "SetLUT() returned False (Resolve rejected the LUT file). Check LUT format and validity."),
                    [(r.target_node, r.lut_path)])
              else
                ((true, if is_removal then "Removed" else "Applied"),
                  [(r.target_node, r.lut_path)])

/-- Body of the matched branch of `_process_item`'s rule loop: apply or
remove the LUT, bump the matching counter and append the detail record.
The third component reports which rule the mutation attempt used. -/
def recordRule (fs : FileSystem) (timeline_name item_name : String)
    (it : Item) (res : Results) (r : Rule) :
    Results × List (Int × String) × Option Rule :=
  let ((success, status_msg), tr) := apply_lut_to_item fs it r
  let is_removal := r.lut_path == ""
  let property_value := get_property_value r it
  if success then
    ({ res with
        luts_applied := res.luts_applied + 1,
        details := res.details ++
          [{ timeline := timeline_name, clip := item_name,
             property := some property_value,
             lut := if is_removal then "(Removed)" else basename r.lut_path,
             target_node := r.target_node, error := none, success := true }] },
      tr, some r)
  else
    ({ res with
        errors := res.errors + 1,
        details := res.details ++
          [{ timeline := timeline_name, clip := item_name,
             property := none,
             lut := if is_removal then "(Removed)" else basename r.lut_path,
             target_node := r.target_node, error := some status_msg,
             success := false }] },
      tr, some r)

/-- The rule loop of `_process_item`: try each rule in order, act on the
first match and break; fall through unchanged when no rule matches. -/
def processRules (fs : FileSystem) (timeline_name item_name : String)
    (it : Item) (res : Results) :
    List Rule → Results × List (Int × String) × Option Rule
  | [] => (res, [], none)
  | r :: rest =>
    if ruleMatches r it then recordRule fs timeline_name item_name it res r
    else processRules fs timeline_name item_name it res rest

/-- Embedding of `LUTApplier._process_item`.  `item.GetName()` is called
outside any `try` block, so its failure propagates; the media pool item
read is guarded and a falsy or raising read counts the item as a
non-media clip, which only bumps `clips_skipped`. -/
def process_item (fs : FileSystem) (rules : List Rule) (timeline_name : String)
    (res : Results) (it : Item) :
    Except String (Results × List (Int × String) × Option Rule) :=
  match it.name with
  | .error e => .error e
  | .ok item_name =>
    let is_media_clip :=
      match it.mediaPoolItem with
      | .error _ => false
      | .ok mpi => mpi.isSome
    if !is_media_clip then
      .ok ({ res with clips_skipped := res.clips_skipped + 1 }, [], none)
    else
      .ok (processRules fs timeline_name item_name it res rules)

/-- The item loop of `apply_luts` over one track: bump `clips_processed`
and process each item, accumulating the mutation attempts in order. -/
def processTrack (fs : FileSystem) (rules : List Rule) (timeline_name : String) :
    List Item → Results → Except String (Results × List (String × Item × Rule))
  | [], res => .ok (res, [])
  | it :: rest, res =>
    let res1 := { res with clips_processed := res.clips_processed + 1 }
    match process_item fs rules timeline_name res1 it with
    | .error e => .error e
    | .ok (res2, _tr, att) =>
      match processTrack fs rules timeline_name rest res2 with
      | .error e => .error e
      | .ok (resF, atts) =>
        .ok (resF,
          (match att with
           | some r => [(timeline_name, it, r)]
           | none => []) ++ atts)

/-- The track loop of `apply_luts` over one timeline. -/
def processTracks (fs : FileSystem) (rules : List Rule) (timeline_name : String) :
    List (List Item) → Results → Except String (Results × List (String × Item × Rule))
  | [], res => .ok (res, [])
  | track :: rest, res =>
    match processTrack fs rules timeline_name track res with
    | .error e => .error e
    | .ok (res1, atts1) =>
      match processTracks fs rules timeline_name rest res1 with
      | .error e => .error e
      | .ok (resF, atts2) => .ok (resF, atts1 ++ atts2)

/-- The timeline loop of `apply_luts`. -/
def processTimelines (fs : FileSystem) (rules : List Rule) :
    List Timeline → Results → Except String (Results × List (String × Item × Rule))
  | [], res => .ok (res, [])
  | tl :: rest, res =>
    match processTracks fs rules tl.tlName tl.videoTracks res with
    | .error e => .error e
    | .ok (res1, atts1) =>
      match processTimelines fs rules rest res1 with
      | .error e => .error e
      | .ok (resF, atts2) => .ok (resF, atts1 ++ atts2)

/-- The aggregate result of a batch run: the `results` dictionary plus the
ordered list of mutation attempts (items that reached
`_apply_lut_to_item`, with their timeline name and winning rule). -/
structure ApplyOutput where
  results : Results
  attempts : List (String × Item × Rule)

/-- Embedding of `LUTApplier.apply_luts`: with no rules configured the
initial results are returned without visiting any item; otherwise every
timeline, video track and item is visited in order. -/
def apply_luts (fs : FileSystem) (tls : List Timeline) (rules : List Rule) :
    Except String ApplyOutput :=
  if rules.isEmpty then .ok ⟨emptyResults, []⟩
  else
    (processTimelines fs rules tls emptyResults).map
      (fun out => ⟨out.1, out.2⟩)

/-- One entry of the list `preview_matches` returns. -/
structure PreviewEntry where
  timeline : String
  clip : String
  property : String
  lut : String
deriving DecidableEq

/-- The rule loop of `preview_matches` for one item: the first matching
rule contributes one entry and the loop breaks. -/
def previewRules (timeline_name item_name : String) (it : Item) :
    List Rule → List PreviewEntry
  | [] => []
  | r :: rest =>
    if ruleMatches r it then
      [{ timeline := timeline_name, clip := item_name,
         property := get_property_value r it,
         lut := if r.lut_path == "" then "(Remove LUT)" else basename r.lut_path }]
    else previewRules timeline_name item_name it rest

/-- The item loop of `preview_matches` over one track; `item.GetName()` is
again unguarded. -/
def previewTrack (rules : List Rule) (timeline_name : String) :
    List Item → Except String (List PreviewEntry)
  | [] => .ok []
  | it :: rest =>
    match it.name with
    | .error e => .error e
    | .ok item_name =>
      match previewTrack rules timeline_name rest with
      | .error e => .error e
      | .ok more => .ok (previewRules timeline_name item_name it rules ++ more)

/-- The track loop of `preview_matches` over one timeline. -/
def previewTracks (rules : List Rule) (timeline_name : String) :
    List (List Item) → Except String (List PreviewEntry)
  | [] => .ok []
  | track :: rest =>
    match previewTrack rules timeline_name track with
    | .error e => .error e
    | .ok here =>
      match previewTracks rules timeline_name rest with
      | .error e => .error e
      | .ok more => .ok (here ++ more)

/-- Embedding of `LUTApplier.preview_matches`. -/
def preview_matches (tls : List Timeline) (rules : List Rule) :
    Except String (List PreviewEntry) :=
  match tls with
  | [] => .ok []
  | tl :: rest =>
    match previewTracks rules tl.tlName tl.videoTracks with
    | .error e => .error e
    | .ok here =>
      match preview_matches rest rules with
      | .error e => .error e
      | .ok more => .ok (here ++ more)

/-- Whether the item resolves to a media pool item without raising — the
eligibility check of `_process_item`. -/
def eligible (it : Item) : Bool :=
  match it.mediaPoolItem with
  | .ok (some _) => true
  | _ => false

/-- The first rule of the list that matches the item, if any — the
RuleSet-evaluator observation both `_process_item` and `preview_matches`
realize with their loop-and-break pattern. -/
def firstMatch (it : Item) : List Rule → Option Rule
  | [] => none
  | r :: rest => if ruleMatches r it then some r else firstMatch it rest

/-- All items of a timeline in track order then placement order. -/
def timelineItems (tl : Timeline) : List Item :=
  tl.videoTracks.flatten

/-- All items of a timeline list in visiting order. -/
def allItems (tls : List Timeline) : List Item :=
  (tls.map timelineItems).flatten

/-- The item name when `GetName()` succeeds, `""` otherwise; used only in
theorem statements about runs where every name read succeeds. -/
def nameD (it : Item) : String :=
  match it.name with
  | .ok s => s
  | .error _ => ""

/-- The preview entry a mutation attempt corresponds to. -/
def renderAttempt (a : String × Item × Rule) : PreviewEntry :=
  { timeline := a.1, clip := nameD a.2.1,
    property := get_property_value a.2.2 a.2.1,
    lut := if a.2.2.lut_path == "" then "(Remove LUT)" else basename a.2.2.lut_path }

/-- The mutation attempts a track's items give rise to. -/
def trackAttempts (timeline_name : String) (rules : List Rule)
    (items : List Item) : List (String × Item × Rule) :=
  items.filterMap (fun it => (firstMatch it rules).map (fun r => (timeline_name, it, r)))

/-- Modelled from the spec (section 4.4): `matches` as the claim states
it — the normalized property value of the rule's category (string-trimmed
for codec, resolution and color tag, frame-rate-normalized for frame
rate) compared for equality against the rule's match value, with a
resolvable media reference required.  Used only to compare the claim's
wording against the embedded rule variants. -/
def specRuleMatches (r : Rule) (it : Item) : Bool :=
  match it.mediaPoolItem with
  | .ok (some mpi) =>
    (match r.kind with
     | .codec =>
       match getClipPropertyKey mpi ("Video Codec") with
       | .ok codec => !codec.isEmpty && pyStrip codec == r.value
       | .error _ => false
     | .resolution =>
       match mpi.clipProps with
       | .ok bag =>
         let resolution := bagGet bag ("Resolution")
         !resolution.isEmpty && pyStrip resolution == r.value
       | .error _ => false
     | .frameRate =>
       match mpi.clipProps with
       | .ok bag =>
         let fr := frameRateRaw bag
         !fr.isEmpty && normalize_frame_rate fr == r.value
       | .error _ => false
     | .clipColor =>
       match it.clipColor with
       | .ok color => !color.isEmpty && pyStrip color == r.value
       | .error _ => false)
  | _ => false

theorem ruleMatches_of_not_eligible (r : Rule) (it : Item)
    (h : eligible it = false) : ruleMatches r it = false := by
  have hm : (∃ e, it.mediaPoolItem = .error e) ∨ it.mediaPoolItem = .ok none := by
    unfold eligible at h
    cases hmm : it.mediaPoolItem with
    | error e => exact .inl ⟨e, rfl⟩
    | ok mo =>
      cases mo with
      | none => exact .inr rfl
      | some mpi => rw [hmm] at h; simp at h
  rcases r with ⟨kind, value, lp, tn⟩
  rcases hm with ⟨e, hm⟩ | hm <;>
    cases kind <;>
      simp [ruleMatches, codecMatches, resolutionMatches, frameRateMatches,
        clipColorMatches, catchB, hm]

theorem firstMatch_of_not_eligible (it : Item) (rules : List Rule)
    (h : eligible it = false) : firstMatch it rules = none := by
  induction rules with
  | nil => rfl
  | cons r rest ih => simp [firstMatch, ruleMatches_of_not_eligible r it h, ih]

theorem processRules_eq (fs : FileSystem) (tn inm : String) (it : Item)
    (res : Results) (rules : List Rule) :
    processRules fs tn inm it res rules =
      match firstMatch it rules with
      | none => (res, [], none)
      | some r => recordRule fs tn inm it res r := by
  induction rules with
  | nil => rfl
  | cons r rest ih =>
    cases h : ruleMatches r it with
    | true => simp [processRules, firstMatch, h]
    | false => simp [processRules, firstMatch, h, ih]

theorem previewRules_eq (tn inm : String) (it : Item) (rules : List Rule) :
    previewRules tn inm it rules =
      match firstMatch it rules with
      | none => []
      | some r =>
        [{ timeline := tn, clip := inm, property := get_property_value r it,
           lut := if r.lut_path == "" then "(Remove LUT)"
                  else basename r.lut_path }] := by
  induction rules with
  | nil => rfl
  | cons r rest ih =>
    cases h : ruleMatches r it with
    | true => simp [previewRules, firstMatch, h]
    | false => simp [previewRules, firstMatch, h, ih]

theorem recordRule_shape (fs : FileSystem) (tn inm : String) (it : Item)
    (res : Results) (r : Rule) :
    ∃ (d : Detail) (tr : List (Int × String)),
      recordRule fs tn inm it res r =
        ({ res with
            luts_applied := res.luts_applied + (if d.success then 1 else 0),
            errors := res.errors + (if d.success then 0 else 1),
            details := res.details ++ [d] }, tr, some r) := by
  unfold recordRule
  rcases h : apply_lut_to_item fs it r with ⟨⟨success, msg⟩, tr⟩
  cases success with
  | false =>
    refine ⟨{ timeline := tn, clip := inm, property := none,
              lut := if r.lut_path == "" then "(Removed)" else basename r.lut_path,
              target_node := r.target_node, error := some msg, success := false },
            tr, ?_⟩
    simp
  | true =>
    refine ⟨{ timeline := tn, clip := inm,
              property := some (get_property_value r it),
              lut := if r.lut_path == "" then "(Removed)" else basename r.lut_path,
              target_node := r.target_node, error := none, success := true },
            tr, ?_⟩
    simp

theorem process_item_eq (fs : FileSystem) (rules : List Rule) (tn : String)
    (res : Results) (it : Item) (s : String) (hs : it.name = Except.ok s) :
    process_item fs rules tn res it =
      if eligible it then .ok (processRules fs tn s it res rules)
      else .ok ({ res with clips_skipped := res.clips_skipped + 1 }, [], none) := by
  unfold process_item eligible
  rw [hs]
  cases hmp : it.mediaPoolItem with
  | error e => simp [hmp]
  | ok mo => cases mo <;> simp [hmp]

theorem processTrack_ok (fs : FileSystem) (rules : List Rule) (tn : String) :
    ∀ (items : List Item) (res : Results),
      (∀ it ∈ items, ∃ s, it.name = Except.ok s) →
      ∃ (resF : Results) (nd : List Detail),
        processTrack fs rules tn items res
            = .ok (resF, trackAttempts tn rules items)
        ∧ resF.clips_processed = res.clips_processed + items.length
        ∧ resF.clips_skipped = res.clips_skipped
            + List.countP (fun it => !(eligible it)) items
        ∧ resF.details = res.details ++ nd
        ∧ nd.length = (trackAttempts tn rules items).length
        ∧ resF.luts_applied = res.luts_applied
            + (nd.filter (fun d => d.success)).length
        ∧ resF.errors = res.errors
            + (nd.filter (fun d => !d.success)).length := by
  intro items
  induction items with
  | nil =>
    intro res hn
    exact ⟨res, [], by simp [processTrack, trackAttempts]⟩
  | cons it rest ih =>
    intro res hn
    obtain ⟨s, hs⟩ := hn it (by simp)
    have hrest : ∀ x ∈ rest, ∃ s, x.name = Except.ok s :=
      fun x hx => hn x (by simp [hx])
    have hpi := process_item_eq fs rules tn
      { res with clips_processed := res.clips_processed + 1 } it s hs
    cases he : eligible it with
    | false =>
      rw [he] at hpi
      simp only [Bool.false_eq_true, if_false] at hpi
      obtain ⟨resF, nd, h1, h2, h3, h4, h5, h6, h7⟩ := ih
        { res with clips_processed := res.clips_processed + 1,
                   clips_skipped := res.clips_skipped + 1 } hrest
      refine ⟨resF, nd, ?_, ?_, ?_, ?_, ?_, ?_, ?_⟩
      · simp only [processTrack, hpi, h1, trackAttempts, List.filterMap_cons,
          firstMatch_of_not_eligible it rules he]
        simp
      · simp at h2; simp [h2]; omega
      · simp at h3; simp [he, h3, List.countP_cons]; omega
      · simpa using h4
      · simpa [trackAttempts, List.filterMap_cons,
          firstMatch_of_not_eligible it rules he] using h5
      · simpa using h6
      · simpa using h7
    | true =>
      rw [he] at hpi
      simp only [if_true] at hpi
      rw [processRules_eq] at hpi
      cases hfm : firstMatch it rules with
      | none =>
        simp only [hfm] at hpi
        obtain ⟨resF, nd, h1, h2, h3, h4, h5, h6, h7⟩ := ih
          { res with clips_processed := res.clips_processed + 1 } hrest
        refine ⟨resF, nd, ?_, ?_, ?_, ?_, ?_, ?_, ?_⟩
        · simp only [processTrack, hpi, h1, trackAttempts, List.filterMap_cons, hfm]
          simp
        · simp at h2; simp [h2]; omega
        · simp at h3; simp [he, h3, List.countP_cons]
        · simpa using h4
        · simpa [trackAttempts, List.filterMap_cons, hfm] using h5
        · simpa using h6
        · simpa using h7
      | some r =>
        simp only [hfm] at hpi
        obtain ⟨d, tr, hrec⟩ := recordRule_shape fs tn s it
          { res with clips_processed := res.clips_processed + 1 } r
        rw [hrec] at hpi
        obtain ⟨resF, nd, h1, h2, h3, h4, h5, h6, h7⟩ := ih
          { res with clips_processed := res.clips_processed + 1,
                     luts_applied := res.luts_applied + (if d.success then 1 else 0),
                     errors := res.errors + (if d.success then 0 else 1),
                     details := res.details ++ [d] } hrest
        refine ⟨resF, d :: nd, ?_, ?_, ?_, ?_, ?_, ?_, ?_⟩
        · simp only [processTrack, hpi, h1, trackAttempts, List.filterMap_cons, hfm]
          simp
        · simp at h2; simp [h2]; omega
        · simp at h3; simp [he, h3, List.countP_cons]
        · simp at h4; simp [h4]
        · simp [trackAttempts, List.filterMap_cons, hfm, h5]
        · simp at h6; simp [h6, List.filter_cons]
          cases d.success <;> simp; omega
        · simp at h7; simp [h7, List.filter_cons]
          cases d.success <;> simp; omega

/-- The mutation attempts a whole batch run gives rise to, in visiting
order. -/
def allAttempts (rules : List Rule) (tls : List Timeline) :
    List (String × Item × Rule) :=
  (tls.map (fun tl => trackAttempts tl.tlName rules (timelineItems tl))).flatten

theorem processTracks_ok (fs : FileSystem) (rules : List Rule) (tn : String) :
    ∀ (tracks : List (List Item)) (res : Results),
      (∀ it ∈ tracks.flatten, ∃ s, it.name = Except.ok s) →
      ∃ (resF : Results) (nd : List Detail),
        processTracks fs rules tn tracks res
            = .ok (resF, trackAttempts tn rules tracks.flatten)
        ∧ resF.clips_processed = res.clips_processed + tracks.flatten.length
        ∧ resF.clips_skipped = res.clips_skipped
            + List.countP (fun it => !(eligible it)) tracks.flatten
        ∧ resF.details = res.details ++ nd
        ∧ nd.length = (trackAttempts tn rules tracks.flatten).length
        ∧ resF.luts_applied = res.luts_applied
            + (nd.filter (fun d => d.success)).length
        ∧ resF.errors = res.errors
            + (nd.filter (fun d => !d.success)).length := by
  intro tracks
  induction tracks with
  | nil =>
    intro res hn
    exact ⟨res, [], by simp [processTracks, trackAttempts]⟩
  | cons track rest ih =>
    intro res hn
    have hn1 : ∀ it ∈ track, ∃ s, it.name = Except.ok s :=
      fun it h => hn it (by simp [h])
    have hn2 : ∀ it ∈ rest.flatten, ∃ s, it.name = Except.ok s :=
      fun it h => hn it (by simp [h])
    obtain ⟨res1, nd1, g1, g2, g3, g4, g5, g6, g7⟩ :=
      processTrack_ok fs rules tn track res hn1
    obtain ⟨resF, nd2, k1, k2, k3, k4, k5, k6, k7⟩ := ih res1 hn2
    refine ⟨resF, nd1 ++ nd2, ?_, ?_, ?_, ?_, ?_, ?_, ?_⟩
    · simp only [processTracks, g1, k1]
      simp [trackAttempts, List.filterMap_append]
    · simp [k2, g2]; omega
    · simp [k3, g3, List.countP_append]; omega
    · simp [k4, g4]
    · simp [k5, g5, trackAttempts, List.filterMap_append]
    · simp [k6, g6, List.filter_append]; omega
    · simp [k7, g7, List.filter_append]; omega

theorem processTimelines_ok (fs : FileSystem) (rules : List Rule) :
    ∀ (tls : List Timeline) (res : Results),
      (∀ it ∈ allItems tls, ∃ s, it.name = Except.ok s) →
      ∃ (resF : Results) (nd : List Detail),
        processTimelines fs rules tls res = .ok (resF, allAttempts rules tls)
        ∧ resF.clips_processed = res.clips_processed + (allItems tls).length
        ∧ resF.clips_skipped = res.clips_skipped
            + List.countP (fun it => !(eligible it)) (allItems tls)
        ∧ resF.details = res.details ++ nd
        ∧ nd.length = (allAttempts rules tls).length
        ∧ resF.luts_applied = res.luts_applied
            + (nd.filter (fun d => d.success)).length
        ∧ resF.errors = res.errors
            + (nd.filter (fun d => !d.success)).length := by
  intro tls
  induction tls with
  | nil =>
    intro res hn
    exact ⟨res, [], by simp [processTimelines, allAttempts, allItems]⟩
  | cons tl rest ih =>
    intro res hn
    have hn1 : ∀ it ∈ tl.videoTracks.flatten, ∃ s, it.name = Except.ok s :=
      fun it h => hn it (by simp [allItems, timelineItems, h])
    have hn2 : ∀ it ∈ allItems rest, ∃ s, it.name = Except.ok s :=
      fun it h => hn it (by simp [allItems] at h ⊢; exact .inr h)
    obtain ⟨res1, nd1, g1, g2, g3, g4, g5, g6, g7⟩ :=
      processTracks_ok fs rules tl.tlName tl.videoTracks res hn1
    obtain ⟨resF, nd2, k1, k2, k3, k4, k5, k6, k7⟩ := ih res1 hn2
    refine ⟨resF, nd1 ++ nd2, ?_, ?_, ?_, ?_, ?_, ?_, ?_⟩
    · simp only [processTimelines, g1, k1]
      simp [allAttempts, timelineItems]
    · simp [k2, g2, allItems, timelineItems]; omega
    · simp [k3, g3, allItems, timelineItems, List.countP_append]; omega
    · simp [k4, g4]
    · simp [k5, g5, allAttempts, allItems, timelineItems]
    · simp [k6, g6, List.filter_append]; omega
    · simp [k7, g7, List.filter_append]; omega

theorem previewTrack_ok (rules : List Rule) (tn : String) :
    ∀ (items : List Item),
      (∀ it ∈ items, ∃ s, it.name = Except.ok s) →
      previewTrack rules tn items
        = .ok ((trackAttempts tn rules items).map renderAttempt) := by
  intro items
  induction items with
  | nil => intro _; rfl
  | cons it rest ih =>
    intro hn
    obtain ⟨s, hs⟩ := hn it (by simp)
    have hrest : ∀ x ∈ rest, ∃ s, x.name = Except.ok s :=
      fun x hx => hn x (by simp [hx])
    simp only [previewTrack, hs, ih hrest]
    rw [previewRules_eq]
    cases hfm : firstMatch it rules with
    | none => simp [trackAttempts, List.filterMap_cons, hfm]
    | some r =>
      simp [trackAttempts, List.filterMap_cons, hfm, renderAttempt, nameD, hs]

theorem previewTracks_ok (rules : List Rule) (tn : String) :
    ∀ (tracks : List (List Item)),
      (∀ it ∈ tracks.flatten, ∃ s, it.name = Except.ok s) →
      previewTracks rules tn tracks
        = .ok ((trackAttempts tn rules tracks.flatten).map renderAttempt) := by
  intro tracks
  induction tracks with
  | nil => intro _; rfl
  | cons track rest ih =>
    intro hn
    have hn1 : ∀ it ∈ track, ∃ s, it.name = Except.ok s :=
      fun it h => hn it (by simp [h])
    have hn2 : ∀ it ∈ rest.flatten, ∃ s, it.name = Except.ok s :=
      fun it h => hn it (by simp [h])
    simp only [previewTracks, previewTrack_ok rules tn track hn1, ih hn2]
    simp [trackAttempts, List.filterMap_append]

theorem preview_matches_ok (rules : List Rule) :
    ∀ (tls : List Timeline),
      (∀ it ∈ allItems tls, ∃ s, it.name = Except.ok s) →
      preview_matches tls rules
        = .ok ((allAttempts rules tls).map renderAttempt) := by
  intro tls
  induction tls with
  | nil => intro _; rfl
  | cons tl rest ih =>
    intro hn
    have hn1 : ∀ it ∈ tl.videoTracks.flatten, ∃ s, it.name = Except.ok s :=
      fun it h => hn it (by simp [allItems, timelineItems, h])
    have hn2 : ∀ it ∈ allItems rest, ∃ s, it.name = Except.ok s :=
      fun it h => hn it (by simp [allItems] at h ⊢; exact .inr h)
    simp only [preview_matches, previewTracks_ok rules tl.tlName tl.videoTracks hn1,
      ih hn2]
    simp [allAttempts, timelineItems]

theorem firstMatch_append_of_none (it : Item) (pre l : List Rule)
    (hpre : ∀ rr ∈ pre, ruleMatches rr it = false) :
    firstMatch it (pre ++ l) = firstMatch it l := by
  induction pre with
  | nil => rfl
  | cons p ps ih =>
    have hp : ruleMatches p it = false := hpre p (by simp)
    simp only [List.cons_append, firstMatch, hp, Bool.false_eq_true, if_false]
    exact ih (fun rr h => hpre rr (by simp [h]))

theorem firstMatch_none_of_all (it : Item) (rules : List Rule)
    (h : ∀ r ∈ rules, ruleMatches r it = false) :
    firstMatch it rules = none := by
  induction rules with
  | nil => rfl
  | cons r rest ih =>
    simp only [firstMatch, h r (by simp), Bool.false_eq_true, if_false]
    exact ih (fun rr hh => h rr (by simp [hh]))

theorem trackAttempts_length (tn : String) (rules : List Rule)
    (items : List Item) :
    (trackAttempts tn rules items).length
      = List.countP (fun it => (firstMatch it rules).isSome) items := by
  unfold trackAttempts
  induction items with
  | nil => rfl
  | cons it rest ih =>
    cases h : firstMatch it rules <;>
      simp [List.filterMap_cons, h, List.countP_cons, ih]

theorem allAttempts_length (rules : List Rule) (tls : List Timeline) :
    (allAttempts rules tls).length
      = List.countP (fun it => (firstMatch it rules).isSome) (allItems tls) := by
  induction tls with
  | nil => rfl
  | cons tl rest ih =>
    simp [allAttempts, allItems, List.countP_append, timelineItems,
      trackAttempts_length] at ih ⊢
    omega

/-- Fixture: a filesystem on which nothing exists and nothing is
readable. -/
def fsEmpty : FileSystem := ⟨fun _ => false, fun _ => false⟩

/-- Fixture: a media pool item whose property bag reads succeed. -/
def mpiH264 : MediaPoolItem :=
  ⟨.ok [("Video Codec", "H.264"), ("Resolution", "1920x1080"),
        ("Frame Rate", "23.976")]⟩

/-- Fixture: a two-node graph whose `SetLUT` always succeeds. -/
def graphSet : Graph := ⟨.ok (some 2), fun _ _ => .ok true⟩

/-- Fixture: a media-backed item named "A" with a Blue color tag. -/
def itemA : Item := ⟨.ok "A", .ok (some mpiH264), .ok "Blue", .ok (some graphSet)⟩

/-- Fixture: a generator/title item: it has a color tag but no media pool
item. -/
def itemGen : Item := ⟨.ok "Gen", .ok none, .ok "Blue", .ok none⟩

/-- Fixture: a codec rule that matches `itemA`. -/
def ruleH264 : Rule := ⟨.codec, "H.264", "/luts/warm.cube", 1⟩

/-- Fixture: a codec rule that matches no fixture item. -/
def ruleProRes : Rule := ⟨.codec, "ProRes", "/luts/cool.cube", 1⟩

/-- Fixture: a color-tag rule for "Blue". -/
def ruleBlue : Rule := ⟨.clipColor, "Blue", "/luts/blue.cube", 1⟩

/-- C1: first-match-wins.  For an item, a prefix of rules that all fail to
match, a rule `r` that matches and arbitrary rules after it, the batch
processor's result and reported outcome equal those for the list truncated
at `r` (so no later rule is applied or reported, whatever it would do),
the mutation attempt uses exactly `r`, the preview evaluator reports
exactly the entry of `r`, and the evaluator's choice is `r`. -/
theorem c1_first_match_wins (fs : FileSystem) (tn inm : String) (it : Item)
    (res : Results) (pre post : List Rule) (r : Rule)
    (hpre : ∀ rr ∈ pre, ruleMatches rr it = false)
    (hr : ruleMatches r it = true) :
    processRules fs tn inm it res (pre ++ r :: post)
        = processRules fs tn inm it res (pre ++ [r])
    ∧ (processRules fs tn inm it res (pre ++ r :: post)).2.2 = some r
    ∧ previewRules tn inm it (pre ++ r :: post)
        = previewRules tn inm it (pre ++ [r])
    ∧ firstMatch it (pre ++ r :: post) = some r := by
  have h1 : firstMatch it (pre ++ r :: post) = some r := by
    rw [firstMatch_append_of_none it pre _ hpre]
    simp [firstMatch, hr]
  have h2 : firstMatch it (pre ++ [r]) = some r := by
    rw [firstMatch_append_of_none it pre _ hpre]
    simp [firstMatch, hr]
  refine ⟨?_, ?_, ?_, h1⟩
  · rw [processRules_eq, processRules_eq, h1, h2]
  · rw [processRules_eq, h1]
    obtain ⟨d, tr, hrec⟩ := recordRule_shape fs tn inm it res r
    simp [hrec]
  · rw [previewRules_eq, previewRules_eq, h1, h2]

/-- Witness for C1 at a concrete input: a non-matching ProRes rule before
a matching H.264 rule, with a second matching rule after it. -/
theorem c1_first_match_wins_witness :
    processRules fsEmpty "T" "A" itemA emptyResults
        ([ruleProRes] ++ ruleH264 :: [ruleBlue])
      = processRules fsEmpty "T" "A" itemA emptyResults ([ruleProRes] ++ [ruleH264])
    ∧ (processRules fsEmpty "T" "A" itemA emptyResults
        ([ruleProRes] ++ ruleH264 :: [ruleBlue])).2.2 = some ruleH264
    ∧ previewRules "T" "A" itemA ([ruleProRes] ++ ruleH264 :: [ruleBlue])
        = previewRules "T" "A" itemA ([ruleProRes] ++ [ruleH264])
    ∧ firstMatch itemA ([ruleProRes] ++ ruleH264 :: [ruleBlue]) = some ruleH264 :=
  c1_first_match_wins fsEmpty "T" "A" itemA emptyResults [ruleProRes] [ruleBlue]
    ruleH264 (by decide) (by decide)

/-- C2: an item whose `GetMediaPoolItem` resolves to nothing is recorded
only as skipped: the skip counter is bumped, the details list is untouched
(so the item appears neither as applied nor as error), no `SetLUT` call is
traced, no mutation attempt happens, and no rule variant matches it —
including a color-tag rule when the item carries a color tag. -/
theorem c2_no_media_only_skipped (fs : FileSystem) (rules : List Rule)
    (tn : String) (res : Results) (it : Item) (s : String)
    (hname : it.name = Except.ok s)
    (hm : it.mediaPoolItem = Except.ok none) :
    process_item fs rules tn res it
        = .ok ({ res with clips_skipped := res.clips_skipped + 1 }, [], none)
    ∧ ∀ r : Rule, ruleMatches r it = false := by
  have he : eligible it = false := by simp [eligible, hm]
  constructor
  · rw [process_item_eq fs rules tn res it s hname, he]
    simp
  · intro r
    exact ruleMatches_of_not_eligible r it he

/-- Witness for C2 at a concrete input: a generator item with a Blue color
tag against a Blue color-tag rule. -/
theorem c2_no_media_only_skipped_witness :
    process_item fsEmpty [ruleBlue] "T" emptyResults itemGen
        = .ok ({ emptyResults with clips_skipped := emptyResults.clips_skipped + 1 },
               [], none)
    ∧ ∀ r : Rule, ruleMatches r itemGen = false :=
  c2_no_media_only_skipped fsEmpty [ruleBlue] "T" emptyResults itemGen "Gen"
    rfl rfl

/-- Fixture: a one-timeline, one-track, one-item batch around `itemA`. -/
def tlA : Timeline := ⟨"T", [[itemA]]⟩

/-- Counterexample to C4: a batch run over a single media-backed item that
matches none of the enabled rules ends with `clips_skipped = 0` and an
empty details list — the skip counter is not incremented and no outcome
record is appended for the unmatched item, contradicting the claim. -/
theorem c4_counterexample :
    apply_luts fsEmpty [tlA] [ruleProRes]
      = .ok ⟨{ clips_processed := 1, clips_skipped := 0, luts_applied := 0,
               errors := 0, details := [] }, []⟩ := by
  rfl

/-- C4 as amended: a media-backed item that matches none of the rules is
passed over silently — the results are returned completely unchanged (no
counter but the caller's `clips_processed` is touched, no detail record is
appended), no `SetLUT` call is traced and no mutation is attempted. -/
theorem c4_amended_unmatched_silent (fs : FileSystem) (rules : List Rule)
    (tn : String) (res : Results) (it : Item) (s : String)
    (hname : it.name = Except.ok s)
    (helig : eligible it = true)
    (hnm : ∀ r ∈ rules, ruleMatches r it = false) :
    process_item fs rules tn res it = .ok (res, [], none) := by
  rw [process_item_eq fs rules tn res it s hname, helig]
  simp only [if_true]
  rw [processRules_eq, firstMatch_none_of_all it rules hnm]

/-- Witness for the amended C4 at a concrete input. -/
theorem c4_amended_unmatched_silent_witness :
    process_item fsEmpty [ruleProRes] "T" emptyResults itemA
      = .ok (emptyResults, [], none) :=
  c4_amended_unmatched_silent fsEmpty [ruleProRes] "T" emptyResults itemA "A"
    rfl rfl (by decide)

/-- Fixture: an item whose `GetName()` raises. -/
def itemBadName : Item :=
  ⟨.error "boom", .ok (some mpiH264), .ok "", .ok (some graphSet)⟩

/-- Fixture: a timeline holding the item whose name read raises. -/
def tlBad : Timeline := ⟨"T", [[itemBadName]]⟩

/-- Counterexample to C3: when the host's per-item `GetName()` read raises,
the exception propagates out of `apply_luts` (the read sits outside every
`try` block), so not every host failure is captured into a per-item
outcome. -/
theorem c3_counterexample :
    apply_luts fsEmpty [tlBad] [ruleProRes] = .error "boom" := by
  rfl

/-- C3 as amended: provided the per-item `GetName()` read succeeds for
every visited item, `apply_luts` never raises, whatever the behavior of
every other host collaborator (media pool reads, property reads, graph
access, `SetLUT` may raise or fail arbitrarily): the run completes with a
result in which the error counter equals the number of failed detail
records. -/
theorem c3_amended_no_raise (fs : FileSystem) (tls : List Timeline)
    (rules : List Rule)
    (hn : ∀ it ∈ allItems tls, ∃ s, it.name = Except.ok s) :
    ∃ out, apply_luts fs tls rules = .ok out
      ∧ out.results.errors
          = (out.results.details.filter (fun d => !d.success)).length := by
  unfold apply_luts
  cases hr : rules.isEmpty with
  | false =>
    obtain ⟨resF, nd, h1, h2, h3, h4, h5, h6, h7⟩ :=
      processTimelines_ok fs rules tls emptyResults hn
    refine ⟨⟨resF, allAttempts rules tls⟩, by rw [h1]; rfl, ?_⟩
    simp only [emptyResults] at h4 h7
    simp [h4, h7]
  | true =>
    exact ⟨⟨emptyResults, []⟩, by simp, by simp [emptyResults]⟩

/-- Fixture: a timeline mixing a media-backed item, a generator and an
item all of whose host reads raise except its name. -/
def itemAllRaise : Item :=
  ⟨.ok "R", .error "mpi boom", .error "color boom", .error "graph boom"⟩

/-- Fixture: a timeline with two tracks exercising skip, error-free match
and raising host reads at once. -/
def tlMixed : Timeline := ⟨"M", [[itemA, itemGen], [itemAllRaise]]⟩

/-- Witness for the amended C3 at a concrete input. -/
theorem c3_amended_no_raise_witness :
    ∃ out, apply_luts fsEmpty [tlMixed] [ruleH264] = .ok out
      ∧ out.results.errors
          = (out.results.details.filter (fun d => !d.success)).length :=
  c3_amended_no_raise fsEmpty [tlMixed] [ruleH264]
    (by
      intro it h
      simp [allItems, timelineItems, tlMixed] at h
      rcases h with h | h | h <;> subst h
      · exact ⟨"A", rfl⟩
      · exact ⟨"Gen", rfl⟩
      · exact ⟨"R", rfl⟩)

/-- Fixture: a media pool item whose codec property carries leading
whitespace. -/
def mpiPadded : MediaPoolItem := ⟨.ok [("Video Codec", " H.264")]⟩

/-- Fixture: a media-backed item with the whitespace-padded codec. -/
def itemPadded : Item := ⟨.ok "P", .ok (some mpiPadded), .ok "", .ok none⟩

/-- Fixture: a codec rule whose match value is the trimmed codec. -/
def rulePadded : Rule := ⟨.codec, "H.264", "", 1⟩

/-- Counterexample to C5: on an item whose raw codec is `" H.264"` and a
codec rule with match value `"H.264"`, the claim's normalized (trimmed)
comparison succeeds but `CodecRule.matches` returns false — the codec
variant compares the raw, untrimmed property value. -/
theorem c5_counterexample :
    specRuleMatches rulePadded itemPadded = true
    ∧ ruleMatches rulePadded itemPadded = false := by
  decide

/-- C5 as amended: `matches(item)` holds exactly when the property reads
succeed and yield a non-falsy value equal to the rule's match value,
where that value is compared raw (untrimmed) for the codec and color-tag
variants, trimmed for the resolution variant, and frame-rate-normalized
for the frame-rate variant; every variant requires a resolvable media
reference. -/
theorem c5_amended_matching (r : Rule) (it : Item) :
    ruleMatches r it = true ↔
      ∃ mpi, it.mediaPoolItem = Except.ok (some mpi) ∧
        (match r.kind with
         | .codec => ∃ bag, mpi.clipProps = Except.ok bag
             ∧ bagGet bag ("Video Codec") ≠ ""
             ∧ bagGet bag ("Video Codec") = r.value
         | .resolution => ∃ bag, mpi.clipProps = Except.ok bag
             ∧ bagGet bag ("Resolution") ≠ ""
             ∧ pyStrip (bagGet bag ("Resolution")) = r.value
         | .frameRate => ∃ bag, mpi.clipProps = Except.ok bag
             ∧ frameRateRaw bag ≠ ""
             ∧ normalize_frame_rate (frameRateRaw bag) = r.value
         | .clipColor => ∃ c, it.clipColor = Except.ok c
             ∧ c ≠ "" ∧ c = r.value) := by
  rcases r with ⟨kind, v, lp, tnn⟩
  cases kind
  case codec =>
    cases hm : it.mediaPoolItem with
    | error e => simp [ruleMatches, codecMatches, catchB, hm]
    | ok mo =>
      cases mo with
      | none => simp [ruleMatches, codecMatches, catchB, hm]
      | some mpi =>
        cases hb : mpi.clipProps with
        | error e =>
          simp [ruleMatches, codecMatches, catchB, getClipPropertyKey, hm, hb,
            Except.map]
        | ok bag =>
          by_cases hbe : bagGet bag ("Video Codec") = "" <;>
            simp [ruleMatches, codecMatches, catchB, getClipPropertyKey, hm, hb,
              hbe, String.isEmpty_iff, Except.map]
  case resolution =>
    cases hm : it.mediaPoolItem with
    | error e => simp [ruleMatches, resolutionMatches, catchB, hm]
    | ok mo =>
      cases mo with
      | none => simp [ruleMatches, resolutionMatches, catchB, hm]
      | some mpi =>
        cases hb : mpi.clipProps with
        | error e => simp [ruleMatches, resolutionMatches, catchB, hm, hb]
        | ok bag =>
          by_cases hbe : bagGet bag ("Resolution") = "" <;>
            simp [ruleMatches, resolutionMatches, catchB, hm, hb, hbe,
              String.isEmpty_iff]
  case frameRate =>
    cases hm : it.mediaPoolItem with
    | error e => simp [ruleMatches, frameRateMatches, catchB, hm]
    | ok mo =>
      cases mo with
      | none => simp [ruleMatches, frameRateMatches, catchB, hm]
      | some mpi =>
        cases hb : mpi.clipProps with
        | error e => simp [ruleMatches, frameRateMatches, catchB, hm, hb]
        | ok bag =>
          by_cases hbe : frameRateRaw bag = "" <;>
            simp [ruleMatches, frameRateMatches, catchB, hm, hb, hbe,
              String.isEmpty_iff]
  case clipColor =>
    cases hm : it.mediaPoolItem with
    | error e => simp [ruleMatches, clipColorMatches, catchB, hm]
    | ok mo =>
      cases mo with
      | none => simp [ruleMatches, clipColorMatches, catchB, hm]
      | some mpi =>
        cases hc : it.clipColor with
        | error e => simp [ruleMatches, clipColorMatches, catchB, hm, hc]
        | ok c =>
          by_cases hbe : c = "" <;>
            simp [ruleMatches, clipColorMatches, catchB, hm, hc, hbe,
              String.isEmpty_iff]

/-- Fixture: a filesystem on which a single LUT file exists but nothing is
readable. -/
def fsLocked : FileSystem := ⟨fun p => p == "/luts/locked.cube", fun _ => false⟩

/-- Counterexample to C8: a path that exists with an allow-listed
extension but is not readable is accepted by `validate_lut_path`, while
the claim's predicate (exists, readable and allow-listed) rejects it —
the readability conjunct of the claim is not checked by the code. -/
theorem c8_counterexample :
    validate_lut_path fsLocked "/luts/locked.cube" = true
    ∧ fsLocked.readable "/luts/locked.cube" = false
    ∧ validateLutPathSpec fsLocked "/luts/locked.cube" = false := by
  decide

/-- C8 as amended: the empty path is always valid (removal sentinel), and
a non-empty path is valid exactly when it exists on the filesystem and
its lowercased form ends with one of the four allow-listed extensions —
readability is not part of the check. -/
theorem c8_amended_validate (fs : FileSystem) (path : String) :
    validate_lut_path fs "" = true
    ∧ (path ≠ "" →
        (validate_lut_path fs path = true ↔
          fs.pathExists path = true
          ∧ lutExtensions.any (fun e => pyEndswith (pyLower path) e) = true)) := by
  refine ⟨rfl, fun h => ?_⟩
  unfold validate_lut_path
  have hbeq : (path == "") = false := by simp [h]
  have hie : path.isEmpty = false := by
    cases hh : path.isEmpty with
    | false => rfl
    | true => exact absurd ((String.isEmpty_iff path).mp hh) h
  rw [hbeq]
  simp only [Bool.false_eq_true, if_false, hie, Bool.false_or]
  cases he : fs.pathExists path <;> simp

/-- Witness for the amended C8 at a concrete input. -/
theorem c8_amended_validate_witness :
    validate_lut_path fsLocked "" = true
    ∧ (validate_lut_path fsLocked "/luts/locked.cube" = true ↔
        fsLocked.pathExists "/luts/locked.cube" = true
        ∧ lutExtensions.any
            (fun e => pyEndswith (pyLower "/luts/locked.cube") e) = true) :=
  ⟨(c8_amended_validate fsLocked "/luts/locked.cube").1,
   (c8_amended_validate fsLocked "/luts/locked.cube").2 (by decide)⟩

/-- C6: removal-sentinel semantics.  For a rule whose LUT path is the
empty string, applied to a media-backed item with an available graph and
an in-range target node: the result is completely independent of the
filesystem (the existence and readability checks are skipped), exactly
one `SetLUT(target_node, "")` invocation is traced, the host's truthy
return yields the success message "Removed", and the recorded outcome
detail carries the removal label "(Removed)" with `success = true`. -/
theorem c6_removal_sentinel (fs fs2 : FileSystem) (tn inm : String)
    (it : Item) (res : Results) (r : Rule) (mpi : MediaPoolItem) (g : Graph)
    (n : Nat)
    (hm : it.mediaPoolItem = Except.ok (some mpi))
    (hg : it.nodeGraph = Except.ok (some g))
    (hnc : g.numNodes = Except.ok (some n))
    (h1 : 1 ≤ r.target_node) (h2 : r.target_node ≤ (n : Int))
    (hrem : r.lut_path = "")
    (hset : g.setLUT r.target_node "" = Except.ok true) :
    apply_lut_to_item fs it r = ((true, "Removed"), [(r.target_node, "")])
    ∧ apply_lut_to_item fs it r = apply_lut_to_item fs2 it r
    ∧ recordRule fs tn inm it res r
        = ({ res with
              luts_applied := res.luts_applied + 1,
              details := res.details ++
                [{ timeline := tn, clip := inm,
                   property := some (get_property_value r it),
                   lut := "(Removed)", target_node := r.target_node,
                   error := none, success := true }] },
           [(r.target_node, "")], some r) := by
  have key : ∀ fsx : FileSystem,
      apply_lut_to_item fsx it r = ((true, "Removed"), [(r.target_node, "")]) := by
    intro fsx
    unfold apply_lut_to_item
    simp only [hm, hg, hnc]
    rw [if_neg (by omega), if_neg (by omega)]
    simp only [hrem, beq_self_eq_true, Bool.not_true, Bool.false_and,
      Bool.false_eq_true, if_false, hset]
    simp
  refine ⟨key fs, (key fs).trans (key fs2).symm, ?_⟩
  unfold recordRule
  rw [key fs]
  simp [hrem]

/-- Witness for C6 at a concrete input: a Blue color-tag removal rule on
node 2 of `itemA`. -/
theorem c6_removal_sentinel_witness :
    apply_lut_to_item fsEmpty itemA ⟨.clipColor, "Blue", "", 2⟩
        = ((true, "Removed"), [((2 : Int), "")])
    ∧ apply_lut_to_item fsEmpty itemA ⟨.clipColor, "Blue", "", 2⟩
        = apply_lut_to_item fsLocked itemA ⟨.clipColor, "Blue", "", 2⟩
    ∧ recordRule fsEmpty "T" "A" itemA emptyResults ⟨.clipColor, "Blue", "", 2⟩
        = ({ emptyResults with
             luts_applied := emptyResults.luts_applied + 1,
             details := emptyResults.details ++
               [{ timeline := "T", clip := "A",
                  property := some (get_property_value
                    ⟨.clipColor, "Blue", "", 2⟩ itemA),
                  lut := "(Removed)", target_node := (2 : Int),
                  error := none, success := true }] },
           [((2 : Int), "")], some ⟨.clipColor, "Blue", "", 2⟩) :=
  c6_removal_sentinel fsEmpty fsLocked "T" "A" itemA emptyResults
    ⟨.clipColor, "Blue", "", 2⟩ mpiH264 graphSet 2
    rfl rfl rfl (by decide) (by decide) rfl rfl

/-- C7: stage validation.  For an item whose graph and node count are
readable, a target node below 1 always yields the out-of-range error for
small stages, a target node above the node count always yields an error
message embedding the actual node count, and in both cases no `SetLUT`
invocation is traced, so the item's graph is left untouched. -/
theorem c7_stage_validation (fs : FileSystem) (it : Item) (r : Rule)
    (mpi : MediaPoolItem) (g : Graph) (n : Nat)
    (hm : it.mediaPoolItem = Except.ok (some mpi))
    (hg : it.nodeGraph = Except.ok (some g))
    (hnc : g.numNodes = Except.ok (some n)) :
    (r.target_node < 1 →
      apply_lut_to_item fs it r
        = ((false, "Invalid target node " ++ toString r.target_node
            ++ " (must be >= 1)"), []))
    ∧ ((n : Int) < r.target_node →
      apply_lut_to_item fs it r
        = ((false, "Target node " ++ toString r.target_node
            ++ " out of range (clip has " ++ toString n
            ++ " node(s)). Add nodes in Color page or change target node."),
           []))
    ∧ ((n : Int) < r.target_node →
      ∃ a b, apply_lut_to_item fs it r = ((false, a ++ toString n ++ b), [])) := by
  have hlow : r.target_node < 1 →
      apply_lut_to_item fs it r
        = ((false, "Invalid target node " ++ toString r.target_node
            ++ " (must be >= 1)"), []) := by
    intro h
    unfold apply_lut_to_item
    simp only [hm, hg, hnc]
    rw [if_pos h]
  have hhigh : (n : Int) < r.target_node →
      apply_lut_to_item fs it r
        = ((false, "Target node " ++ toString r.target_node
            ++ " out of range (clip has " ++ toString n
            ++ " node(s)). Add nodes in Color page or change target node."),
           []) := by
    intro h
    unfold apply_lut_to_item
    simp only [hm, hg, hnc]
    rw [if_neg (by omega), if_pos h]
  refine ⟨hlow, hhigh, fun h => ?_⟩
  refine ⟨"Target node " ++ toString r.target_node ++ " out of range (clip has ",
    " node(s)). Add nodes in Color page or change target node.", ?_⟩
  rw [hhigh h]

/-- Witness for C7 at concrete inputs: target node 0 and target node 5 on
a two-node graph. -/
theorem c7_stage_validation_witness :
    apply_lut_to_item fsEmpty itemA ⟨.codec, "H.264", "/luts/warm.cube", 0⟩
        = ((false, "Invalid target node 0 (must be >= 1)"), [])
    ∧ apply_lut_to_item fsEmpty itemA ⟨.codec, "H.264", "/luts/warm.cube", 5⟩
        = ((false, "Target node 5 out of range (clip has 2 node(s)). Add nodes in Color page or change target node."),
           []) := by
  constructor
  · have h := (c7_stage_validation fsEmpty itemA
      ⟨.codec, "H.264", "/luts/warm.cube", 0⟩ mpiH264 graphSet 2
      rfl rfl rfl).1 (by decide)
    exact h
  · have h := (c7_stage_validation fsEmpty itemA
      ⟨.codec, "H.264", "/luts/warm.cube", 5⟩ mpiH264 graphSet 2
      rfl rfl rfl).2.1 (by decide)
    exact h

theorem trackAttempts_nil_rules (tn : String) (items : List Item) :
    trackAttempts tn [] items = [] := by
  unfold trackAttempts
  induction items with
  | nil => rfl
  | cons it rest ih => simp [List.filterMap_cons, firstMatch, ih]

theorem allAttempts_nil_rules (tls : List Timeline) :
    allAttempts [] tls = [] := by
  induction tls with
  | nil => rfl
  | cons tl rest ih => simp [allAttempts, trackAttempts_nil_rules]

/-- C9: preview/apply parity.  Whenever every per-item name read succeeds,
a batch run completes with a mutation-attempt sequence that is exactly the
per-item first-match sequence in container/track/placement order, and
`preview_matches` returns precisely that sequence rendered as preview
entries — the same items, the same winning rules, in the same order. -/
theorem c9_preview_apply_parity (fs : FileSystem) (tls : List Timeline)
    (rules : List Rule)
    (hn : ∀ it ∈ allItems tls, ∃ s, it.name = Except.ok s) :
    ∃ out, apply_luts fs tls rules = .ok out
      ∧ out.attempts = allAttempts rules tls
      ∧ preview_matches tls rules = .ok (out.attempts.map renderAttempt) := by
  unfold apply_luts
  cases hr : rules.isEmpty with
  | false =>
    obtain ⟨resF, nd, h1, _⟩ := processTimelines_ok fs rules tls emptyResults hn
    refine ⟨⟨resF, allAttempts rules tls⟩, by rw [h1]; rfl, rfl, ?_⟩
    exact preview_matches_ok rules tls hn
  | true =>
    have hrules : rules = [] := by
      cases rules with
      | nil => rfl
      | cons a l => simp [List.isEmpty] at hr
    subst hrules
    refine ⟨⟨emptyResults, []⟩, by simp, by simp [allAttempts_nil_rules], ?_⟩
    rw [preview_matches_ok [] tls hn, allAttempts_nil_rules]

/-- Witness for C9 at a concrete input. -/
theorem c9_preview_apply_parity_witness :
    ∃ out, apply_luts fsEmpty [tlA] [ruleBlue] = .ok out
      ∧ out.attempts = allAttempts [ruleBlue] [tlA]
      ∧ preview_matches [tlA] [ruleBlue] = .ok (out.attempts.map renderAttempt) :=
  c9_preview_apply_parity fsEmpty [tlA] [ruleBlue]
    (by
      intro it h
      simp [allItems, timelineItems, tlA] at h
      subst h
      exact ⟨"A", rfl⟩)

/-- C10: result consistency of `apply_luts`.  After every completed run
with a non-empty rule list and successful name reads, the counters and
detail records cohere: `luts_applied` counts the successful details,
`errors` the failed ones, `clips_processed` every visited item,
`clips_skipped` exactly the visited items without a media reference, and
details exist exactly for the items some rule matched — skipped and
unmatched items produce no detail record at all. -/
theorem c10_result_consistency (fs : FileSystem) (tls : List Timeline)
    (rules : List Rule) (hr : rules ≠ [])
    (hn : ∀ it ∈ allItems tls, ∃ s, it.name = Except.ok s) :
    ∃ out, apply_luts fs tls rules = .ok out
      ∧ out.results.luts_applied
          = (out.results.details.filter (fun d => d.success)).length
      ∧ out.results.errors
          = (out.results.details.filter (fun d => !d.success)).length
      ∧ out.results.clips_processed = (allItems tls).length
      ∧ out.results.clips_skipped
          = List.countP (fun it => !(eligible it)) (allItems tls)
      ∧ out.results.details.length = out.attempts.length
      ∧ out.attempts.length
          = List.countP (fun it => (firstMatch it rules).isSome) (allItems tls) := by
  unfold apply_luts
  have hre : rules.isEmpty = false := by
    cases rules with
    | nil => exact absurd rfl hr
    | cons a l => rfl
  rw [hre]
  obtain ⟨resF, nd, h1, h2, h3, h4, h5, h6, h7⟩ :=
    processTimelines_ok fs rules tls emptyResults hn
  refine ⟨⟨resF, allAttempts rules tls⟩, by rw [h1]; rfl, ?_, ?_, ?_, ?_, ?_, ?_⟩
  · simp only [emptyResults] at h4 h6
    simp [h4, h6]
  · simp only [emptyResults] at h4 h7
    simp [h4, h7]
  · simp only [emptyResults] at h2
    simpa using h2
  · simp only [emptyResults] at h3
    simpa using h3
  · simp only [emptyResults] at h4
    simp [h4, h5]
  · exact allAttempts_length rules tls

/-- Witness for C10 at a concrete input: a mixed batch with a matching
item, a generator and an item whose non-name host reads all raise. -/
theorem c10_result_consistency_witness :
    ∃ out, apply_luts fsEmpty [tlMixed] [ruleBlue] = .ok out
      ∧ out.results.luts_applied
          = (out.results.details.filter (fun d => d.success)).length
      ∧ out.results.errors
          = (out.results.details.filter (fun d => !d.success)).length
      ∧ out.results.clips_processed = (allItems [tlMixed]).length
      ∧ out.results.clips_skipped
          = List.countP (fun it => !(eligible it)) (allItems [tlMixed])
      ∧ out.results.details.length = out.attempts.length
      ∧ out.attempts.length
          = List.countP (fun it => (firstMatch it [ruleBlue]).isSome)
              (allItems [tlMixed]) :=
  c10_result_consistency fsEmpty [tlMixed] [ruleBlue] (by simp)
    (by
      intro it h
      simp [allItems, timelineItems, tlMixed] at h
      rcases h with h | h | h <;> subst h
      · exact ⟨"A", rfl⟩
      · exact ⟨"Gen", rfl⟩
      · exact ⟨"R", rfl⟩)

end AddLutsByRules
